import Mathlib

/-!
Verification of the dashboard's Process Supervision & Real-Time Event
Synchronization Engine (RalphWiggumV2).

Shallow embedding of the relevant source files:
  - src/dashboard/server/fileWatcher.ts   (log tailer, checklist parser)
  - src/dashboard/server/loopController.ts (process supervisor)
  - src/dashboard/server/index.ts          (broadcast hub / ws server)
  - src/dashboard/server/projectConfig.ts  (document name validation)

File contents are modelled as lists of characters (one character per byte,
at the granularity the claims need); timestamps, process ids and random
log-entry ids are passed in as parameters since they come from the
environment (Date.now, Math.random, the OS).
-/

/-! ## JavaScript string semantics helpers -/

/-- ASCII whitespace as matched by the JS regex class backslash-s and
removed by String.prototype.trim (Unicode space classes beyond ASCII are
not used by any content this system processes). -/
def isJsWs (c : Char) : Bool :=
  c = ' ' || c = '\t' || c = '\n' || c = '\r' || c = '\x0b' || c = '\x0c'

/-- JS String.prototype.trim: drop whitespace from both ends. -/
def jsTrim (s : List Char) : List Char :=
  ((s.dropWhile isJsWs).reverse.dropWhile isJsWs).reverse

/-- JS String.prototype.split with separator a single newline.
"".split gives [""], "a\nb" gives ["a","b"], trailing newline yields a
trailing empty fragment. -/
def splitNL : List Char → List (List Char)
  | [] => [[]]
  | c :: cs =>
    if c = '\n' then [] :: splitNL cs
    else
      match splitNL cs with
      | [] => [[c]]
      | l :: ls => (c :: l) :: ls

/-- Does the needle occur at the start of the haystack? -/
def listStartsWith : List Char → List Char → Bool
  | [], _ => true
  | _ :: _, [] => false
  | a :: as, b :: bs => a == b && listStartsWith as bs

/-- JS String.prototype.includes: does the needle occur anywhere in the
haystack? -/
def containsSeq (needle : List Char) : List Char → Bool
  | [] => listStartsWith needle []
  | c :: cs => listStartsWith needle (c :: cs) || containsSeq needle cs

/-- JS String.prototype.toLowerCase, per character (ASCII). -/
def jsToLower (s : List Char) : List Char := s.map Char.toLower

/-! ## Shared data model (src/dashboard/src/types/index.ts) -/

/-- LogEntry['type'] = 'info' | 'warning' | 'error' | 'success'. -/
inductive LogType
  | info
  | warning
  | error
  | success
deriving DecidableEq, Repr

/-- LoopMode = 'plan' | 'plan-slc' | 'plan-work' | 'build'. -/
inductive LoopMode
  | plan
  | planSlc
  | planWork
  | build
deriving DecidableEq, Repr

/-- The string value of a LoopMode (the TS type is a string union). -/
def LoopMode.str : LoopMode → String
  | .plan => "plan"
  | .planSlc => "plan-slc"
  | .planWork => "plan-work"
  | .build => "build"

/-- LoopStatus from types/index.ts. Dates are modelled as Nat
milliseconds; pid is the OS process id. -/
structure LoopStatus where
  running : Bool
  mode : Option LoopMode
  iteration : Nat
  maxIterations : Nat
  workScope : Option String := none
  startedAt : Option Nat := none
  pid : Option Nat := none
deriving DecidableEq, Repr

/-- GitCommit from types/index.ts. -/
structure GitCommit where
  hash : String
  message : String
  author : String
  date : Nat
deriving DecidableEq, Repr

/-- GitStatus from types/index.ts. -/
structure GitStatus where
  branch : String
  uncommittedCount : Nat
  commits : List GitCommit
  lastUpdated : Option Nat := none
  remoteUrl : Option String := none
  repoName : Option String := none
deriving DecidableEq, Repr

/-- ProjectConfig from types/index.ts. -/
structure ProjectConfig where
  projectPath : String
  hasAgentsMd : Bool
  hasClaudeMd : Bool
  hasImplementationPlan : Bool
  hasSpecs : Bool
  hasCursorRules : Bool
  hasLoopSh : Bool
  enabledAgents : List String
deriving DecidableEq, Repr

namespace FileWatcher

/-- Task from types/index.ts (checklist item). -/
structure Task where
  id : String
  content : String
  completed : Bool
deriving DecidableEq, Repr

/-- TasksState from types/index.ts. -/
structure TasksState where
  tasks : List Task
  completed : Nat
  total : Nat
  lastUpdated : Option Nat := none
deriving DecidableEq, Repr

/-- fileWatcher.ts classifyLogLine (lines 127-139): case-insensitive
substring match, first matching severity wins. -/
def classifyLogLine (line : List Char) : LogType :=
  let lower := jsToLower line
  if containsSeq ("error".data) lower || containsSeq ("fail".data) lower ||
      containsSeq ("exception".data) lower then
    .error
  else if containsSeq ("warning".data) lower || containsSeq ("warn".data) lower then
    .warning
  else if containsSeq ("success".data) lower || containsSeq ("complete".data) lower ||
      containsSeq ("pass".data) lower then
    .success
  else
    .info

/-- fileWatcher.ts tailLog (lines 95-125), as a function of the current
file contents (none = fs.stat/open threw, e.g. the file does not exist)
and the retained byte offset this.lastLogPosition. Returns the new
offset and the list of emitted line texts, in order. The emitted
LogEntry objects carry ids/timestamps drawn from the clock and RNG,
and each entry's type is classifyLogLine of its line; only the line
texts and the offset matter to the claims.

Source control flow: if stat.size > lastLogPosition, read exactly the
byte range [lastLogPosition, stat.size), split on newline, keep lines
that are nonempty after trim, emit each, and set lastLogPosition =
stat.size. There is no branch for stat.size <= lastLogPosition: the
offset is left unchanged and nothing is emitted. On a stat failure the
catch block sets lastLogPosition = 0 and emits nothing. -/
def tailLog (file : Option (List Char)) (lastLogPosition : Nat) :
    Nat × List (List Char) :=
  match file with
  | none => (0, [])
  | some content =>
    if content.length > lastLogPosition then
      let newContent := content.drop lastLogPosition
      let lines := (splitNL newContent).filter (fun l => !(jsTrim l).isEmpty)
      (content.length, lines)
    else
      (lastLogPosition, [])

/-- The non-empty (after trim) lines of a piece of content, exactly as
tailLog computes them from a fresh read at offset 0. -/
def jsLines (content : List Char) : List (List Char) :=
  (splitNL content).filter (fun l => !(jsTrim l).isEmpty)

/-- The capture group of the JS regex fragment backslash-s* (.+) $ when
matched against the tail of a checklist line (the part after the
closing bracket). The dot matches any character except line
terminators, so a carriage return can only be consumed by the greedy
whitespace star; the match fails when no nonempty CR-free suffix with
an all-whitespace complement exists. Greedy matching prefers the
longest whitespace run that still lets the dot-plus succeed. -/
def dotPlusCapture : List Char → Option (List Char)
  | [] => none
  | c :: cs =>
    if isJsWs c then
      match dotPlusCapture cs with
      | some v => some v
      | none => if c = '\r' || cs.contains '\r' then none else some (c :: cs)
    else
      if (c :: cs).contains '\r' then none else some (c :: cs)

/-- fileWatcher.ts parseTasks line match (line 70): the JS regex
caret - backslash-s* [ ([ xX]) ] backslash-s* (.+) $ applied to one
line. Returns the bracket character (group 1) and the raw group-2
capture. -/
def matchTaskLine (line : List Char) : Option (Char × List Char) :=
  match line with
  | '-' :: r0 =>
    match r0.dropWhile isJsWs with
    | '[' :: c :: ']' :: r2 =>
      if c = ' ' || c = 'x' || c = 'X' then
        (dotPlusCapture r2).map (fun v => (c, v))
      else none
    | _ => none
  | _ => none

/-- The Task object pushed for a matching line (lines 72-77): positional
id, trimmed group-2 text, completed iff the lowercased bracket char is
x. -/
def taskOfLine (index : Nat) (c : Char) (v : List Char) : Task :=
  { id := "task-" ++ toString index
    content := String.mk (jsTrim v)
    completed := c.toLower = 'x' }

/-- fileWatcher.ts parseTasks (lines 60-93), successful-read path: split
the file into lines, build a Task per matching line, derive the counts,
stamp lastUpdated with the clock. -/
def parseTasksPure (content : List Char) (now : Nat) : TasksState :=
  let tasks := (splitNL content).enum.filterMap
    (fun p => (matchTaskLine p.2).map (fun m => taskOfLine p.1 m.1 m.2))
  { tasks := tasks
    completed := (tasks.filter (fun t => t.completed)).length
    total := tasks.length
    lastUpdated := some now }

/-- parseTasks including its try/catch: readResult none models a failed
fs.readFile (file absent). The catch body is empty, so the retained
this.tasks is untouched and no tasks event is emitted; on success the
retained state is replaced and emitted. Returns (new retained state,
emitted event). -/
def parseTasksStep (readResult : Option (List Char)) (now : Nat)
    (retained : TasksState) : TasksState × Option TasksState :=
  match readResult with
  | none => (retained, none)
  | some content =>
    let st := parseTasksPure content now
    (st, some st)

end FileWatcher

namespace LoopController

/-- An event emitted by the LoopController EventEmitter: a 'log' event
(the LogEntry's clock/RNG-generated id and timestamp are environment
data and omitted) or a 'status' event carrying a copy of this.status. -/
inductive CtrlEvent
  | log (content : String) (type : LogType)
  | statusEv (s : LoopStatus)
deriving DecidableEq, Repr

/-- The mutable fields of the LoopController relevant to start/stop:
this.process (the child process handle, by its OS pid) and this.status. -/
structure ControllerState where
  process : Option Nat
  status : LoopStatus
deriving DecidableEq, Repr

/-- JS truthiness of the optional maxIterations number: undefined and 0
are falsy. -/
def truthyNat : Option Nat → Bool
  | some n => n != 0
  | none => false

/-- JS truthiness of the optional workScope string: undefined and the
empty string are falsy. -/
def truthyStr : Option String → Bool
  | some s => s != ""
  | none => false

/-- The argument pushed for `if (maxIterations) args.push(maxIterations.toString())`. -/
def natArg (maxIterations : Option Nat) : List String :=
  match maxIterations with
  | some n => if n != 0 then [toString n] else []
  | none => []

/-- The argument pushed for `if (workScope) args.push(workScope)`. -/
def scopeArg (workScope : Option String) : List String :=
  match workScope with
  | some s => if s != "" then [s] else []
  | none => []

/-- loopController.ts start, lines 35-55: the command argument list as a
function of mode, maxIterations and workScope. Note the plan-work mode
pushes the free-text workScope as a positional argument. -/
def buildArgs : LoopMode → Option Nat → Option String → List String
  | .plan, mi, _ => "plan" :: natArg mi
  | .planSlc, mi, _ => "plan-slc" :: natArg mi
  | .planWork, _, ws => "plan-work" :: scopeArg ws
  | .build, mi, _ => natArg mi

/-- loopController.ts start, line 61: the WORK_SCOPE entry of the spawn
environment overlay, `WORK_SCOPE: workScope || ''`. -/
def envWorkScope (workScope : Option String) : String :=
  match workScope with
  | some s => if s != "" then s else ("")
  | none => ""

/-- The spawn call issued by start: bash loop.sh plus the built argument
list, with the WORK_SCOPE environment overlay. -/
structure SpawnCall where
  args : List String
  workScopeEnv : String
deriving DecidableEq, Repr

/-- The result of one start() call: the controller state afterwards, the
events emitted during the call, and the spawn issued (if any). -/
structure StartOutcome where
  state : ControllerState
  events : List CtrlEvent
  spawned : Option SpawnCall
deriving DecidableEq, Repr

/-- The `Starting loop: ...` log text of line 57. -/
def startLogText (mode : LoopMode) (maxIterations : Option Nat) : String :=
  "Starting loop: " ++ mode.str ++
    (match maxIterations with
     | some n => if n != 0 then (" (max " ++ toString n ++ " iterations)") else ("")
     | none => ("") )

/-- loopController.ts start (lines 25-74, synchronous part). If
this.process is non-null the call emits a 'Loop already running'
warning log and returns; otherwise it spawns the child (its OS pid is
the newPid parameter, the clock reads now), replaces this.status with
a fresh running status and emits it. The stdout/stderr/exit handlers
installed afterwards react to later child events and are modelled
separately. -/
def start (st : ControllerState) (mode : LoopMode) (maxIterations : Option Nat)
    (workScope : Option String) (newPid now : Nat) : StartOutcome :=
  match st.process with
  | some _ =>
    { state := st
      events := [CtrlEvent.log ("Loop already running") LogType.warning]
      spawned := none }
  | none =>
    let newStatus : LoopStatus :=
      { running := true
        mode := some mode
        iteration := 0
        maxIterations := (maxIterations.getD 0)
        workScope := workScope
        startedAt := some now
        pid := some newPid }
    { state := { process := some newPid, status := newStatus }
      events := [CtrlEvent.log (startLogText mode maxIterations) LogType.info,
                 CtrlEvent.statusEv newStatus]
      spawned := some { args := buildArgs mode maxIterations workScope
                        workScopeEnv := envWorkScope workScope } }

/-- The fixed grace period of the force-kill timer (line 140): 5000 ms. -/
def GRACE_MS : Nat := 5000

/-- The supervisor's process-handle/timer/signal state across a timeline:
this.process (by pid), the fire times of armed setTimeout force-kill
timers, and the (pid, signal) pairs delivered so far, in order. -/
structure SupState where
  process : Option Nat
  timers : List Nat
  kills : List (Nat × String)
deriving DecidableEq, Repr

/-- loopController.ts stop (lines 123-141) called at time now: with no
process it logs a warning and returns; otherwise it sends SIGINT to the
current process and arms a setTimeout for now + 5000 ms. Nothing in the
source ever calls clearTimeout. -/
def stopStep (st : SupState) (now : Nat) : SupState :=
  match st.process with
  | none => st
  | some p =>
    { st with kills := st.kills ++ [(p, "SIGINT")]
              timers := st.timers ++ [now + GRACE_MS] }

/-- The 'close' handler (lines 100-109): this.process = null. The armed
timers are untouched (there is no clearTimeout in the source). -/
def closeStep (st : SupState) : SupState :=
  { st with process := none }

/-- start() as it affects the process handle (lines 26-29 guard, line 59
spawn): a no-op when a handle exists, otherwise the handle becomes the
new child's. -/
def startStep (st : SupState) (pid : Nat) : SupState :=
  match st.process with
  | some _ => st
  | none => { st with process := some pid }

/-- A setTimeout callback armed for fireTime executing at time now
(lines 135-140): it runs only once its due time has arrived, is
consumed, and sends SIGKILL to whatever this.process currently is, if
any — the guard `if (this.process)` does not check that the handle is
the process the timer was armed for. -/
def timerFireStep (st : SupState) (fireTime now : Nat) : SupState :=
  if st.timers.contains fireTime && decide (fireTime ≤ now) then
    { process := st.process
      timers := st.timers.erase fireTime
      kills :=
        match st.process with
        | some p => st.kills ++ [(p, "SIGKILL")]
        | none => st.kills }
  else st

/-- One timed action on the supervisor. -/
inductive SupAction
  | stopCall
  | closeEv
  | startCall (pid : Nat)
  | fire (fireTime : Nat)
deriving DecidableEq, Repr

/-- Dispatch one (time, action) pair. -/
def supStep (st : SupState) : Nat × SupAction → SupState
  | (now, .stopCall) => stopStep st now
  | (_, .closeEv) => closeStep st
  | (_, .startCall pid) => startStep st pid
  | (now, .fire t) => timerFireStep st t now

/-- Run a time-ordered trace of supervisor actions. -/
def supRun (st : SupState) (trace : List (Nat × SupAction)) : SupState :=
  trace.foldl supStep st

end LoopController

namespace ProjectConfigManager

/-- node path.isAbsolute for POSIX paths: starts with a slash. -/
def isAbsolutePath (filename : List Char) : Bool :=
  match filename with
  | '/' :: _ => true
  | _ => false

/-- projectConfig.ts readFile/writeFile guard (lines 73 and 83):
`filename.includes('..') || path.isAbsolute(filename)`. -/
def invalidDocName (filename : List Char) : Bool :=
  containsSeq ("..".data) filename || isAbsolutePath filename

/-- The effect of writeFile (lines 81-95) on the filesystem: either the
validation throws before any fs call, or the named document is written
with the given content. -/
inductive WriteOutcome
  | rejected
  | written (filename : List Char) (content : List Char)
deriving DecidableEq, Repr

/-- projectConfig.ts writeFile: throw Error('Invalid filename') on a
path-escaping or absolute name, before touching the filesystem;
otherwise write the file under the project path. -/
def writeFile (filename content : List Char) : WriteOutcome :=
  if invalidDocName filename then .rejected
  else .written filename content

/-- The effect of readFile (lines 71-79): validation throw, or a read of
the named document. -/
inductive ReadOutcome
  | rejected
  | readOk (filename : List Char)
deriving DecidableEq, Repr

/-- projectConfig.ts readFile: same guard as writeFile. -/
def readFile (filename : List Char) : ReadOutcome :=
  if invalidDocName filename then .rejected
  else .readOk filename

end ProjectConfigManager

namespace Server

/-- A ws socket's readyState as tested by broadcast (line 42). -/
inductive ReadyState
  | wsOpen
  | wsClosed
deriving DecidableEq, Repr

/-- A server-to-observer message (index.ts event types relevant to the
core). LogEntry ids/timestamps are environment data and omitted. -/
inductive ServerMsg
  | loopStatus (s : LoopStatus)
  | loopLog (content : String) (type : LogType)
  | tasksUpdate (t : FileWatcher.TasksState)
  | gitUpdate (g : GitStatus)
  | configUpdate (c : ProjectConfig)
deriving DecidableEq, Repr

/-- One entry of the `clients` set: the socket (identified by an id
standing for the object identity), its readyState, and the messages
delivered to it so far, in order. -/
structure Client where
  id : Nat
  readyState : ReadyState
  inbox : List ServerMsg
deriving DecidableEq, Repr

/-- index.ts broadcast (lines 39-46): send the message to every client
whose readyState is OPEN; other clients are skipped and stay in the
set. Each client is handled independently of the others. -/
def broadcast (msg : ServerMsg) (clients : List Client) : List Client :=
  clients.map (fun c =>
    if c.readyState = .wsOpen then { c with inbox := c.inbox ++ [msg] } else c)

/-- The ws 'close' handler (lines 118-121): clients.delete(ws). -/
def handleClose (clients : List Client) (wsId : Nat) : List Client :=
  clients.filter (fun c => c.id != wsId)

/-- Find the client for a socket id. -/
def listFindClient (clients : List Client) (wsId : Nat) : Option Client :=
  clients.find? (fun c => c.id == wsId)

/-- The server's retained snapshots: the LoopController status, the
FileWatcher tasks and git state, the ProjectConfigManager config, plus
the connected client set. -/
structure ServerState where
  clients : List Client
  loopStatus : LoopStatus
  tasks : FileWatcher.TasksState
  git : GitStatus
  config : ProjectConfig
deriving DecidableEq, Repr

/-- The initial-state sends of the connection handler (lines 54-57), in
source order: loop:status, tasks:update, git:update, config:update,
each the current snapshot at connect time. -/
def connectSnapshots (st : ServerState) : List ServerMsg :=
  [ServerMsg.loopStatus st.loopStatus,
   ServerMsg.tasksUpdate st.tasks,
   ServerMsg.gitUpdate st.git,
   ServerMsg.configUpdate st.config]

/-- An event processed by the server's single-threaded event loop:
a new ws connection, a socket close, or a producer event (which the
component has already applied to its own retained snapshot and the hub
broadcasts). -/
inductive ServerEvent
  | connect (id : Nat)
  | close (id : Nat)
  | producer (m : ServerMsg)
deriving DecidableEq, Repr

/-- Update the retained snapshot a producer event replaces (the
components own these snapshots; loop:log events replace nothing). -/
def applyRetained (st : ServerState) (m : ServerMsg) : ServerState :=
  match m with
  | .loopStatus s => { st with loopStatus := s }
  | .tasksUpdate t => { st with tasks := t }
  | .gitUpdate g => { st with git := g }
  | .configUpdate c => { st with config := c }
  | .loopLog _ _ => st

/-- The channel entry created by the connection handler: just added to
the set, with the four snapshots already sent to it. -/
def newClient (st : ServerState) (wsId : Nat) : Client :=
  { id := wsId, readyState := .wsOpen, inbox := connectSnapshots st }

/-- Process one event. The connection handler (lines 49-57) runs
synchronously: it adds the socket to the set and sends the four
snapshots before any other event can be dispatched, so the new client's
inbox starts as exactly connectSnapshots of the state at connect time. -/
def stepServer (st : ServerState) (e : ServerEvent) : ServerState :=
  match e with
  | .connect id =>
    { st with clients := st.clients ++ [newClient st id] }
  | .close id => { st with clients := handleClose st.clients id }
  | .producer m =>
    let st' := applyRetained st m
    { st' with clients := broadcast m st'.clients }

/-- Process a sequence of events. -/
def runServer (st : ServerState) (es : List ServerEvent) : ServerState :=
  es.foldl stepServer st

/-- index.ts lines 138-144: every LoopController event is fanned out via
broadcast — 'status' as loop:status and 'log' as loop:log. -/
def routeCtrlEvent : LoopController.CtrlEvent → ServerMsg
  | .log content ty => .loopLog content ty
  | .statusEv s => .loopStatus s

/-- Deliver a list of controller events through broadcast, in order. -/
def deliverCtrlEvents (evs : List LoopController.CtrlEvent)
    (clients : List Client) : List Client :=
  evs.foldl (fun cs e => broadcast (routeCtrlEvent e) cs) clients

/-- A unicast reply sent to the requesting socket only (ws.send inside
the message handler). -/
inductive WsReply
  | configContent (file : List Char)
  | configSaved (file : List Char)
deriving DecidableEq, Repr

/-- The ws message handler case 'config:write' (lines 75-77) together
with the surrounding try/catch (lines 61, 113-115): when writeFile
throws, the catch only logs to the server console and sends nothing to
the observer; on success a config:saved reply is unicast. Returns the
reply (if any) and the filesystem effect. -/
def handleConfigWrite (filename content : List Char) :
    Option WsReply × ProjectConfigManager.WriteOutcome :=
  match ProjectConfigManager.writeFile filename content with
  | .rejected => (none, .rejected)
  | .written f c => (some (.configSaved f), .written f c)

/-- The ws message handler case 'config:read' (lines 71-74) with the
same try/catch: a validation throw reaches the observer as nothing. -/
def handleConfigRead (filename : List Char) :
    Option WsReply × ProjectConfigManager.ReadOutcome :=
  match ProjectConfigManager.readFile filename with
  | .rejected => (none, .rejected)
  | .readOk f => (some (.configContent f), .readOk f)

/-- The REST handler POST /api/config/:file (lines 215-222): a throw is
answered with HTTP 500, success with HTTP 200. -/
def restConfigWrite (filename content : List Char) :
    Nat × ProjectConfigManager.WriteOutcome :=
  match ProjectConfigManager.writeFile filename content with
  | .rejected => (500, .rejected)
  | .written f c => (200, .written f c)

end Server



/-! ## Concrete instances used by the claim theorems and witnesses -/

/-- A LoopStatus as published mid-run (isRunning, current iteration). -/
def demoRunningStatus : LoopStatus :=
  { running := true
    mode := some LoopMode.build
    iteration := 3
    maxIterations := 0
    workScope := none
    startedAt := some 50
    pid := some 7 }

/-- The LoopStatus the controller is constructed with (lines 9-14). -/
def demoIdleStatus : LoopStatus :=
  { running := false, mode := none, iteration := 0, maxIterations := 0 }

/-- C1 scenario start state: a child with pid 42 is running. -/
def c1Init : LoopController.SupState :=
  { process := some 42, timers := [], kills := [] }

/-- C1 scenario: stop() at t=0 (arming the 5000 ms force-kill timer),
the child exits at t=1000, a new run with pid 99 starts at t=2000, and
the timer fires at t=5000. -/
def c1Trace : List (Nat × LoopController.SupAction) :=
  [(0, LoopController.SupAction.stopCall),
   (1000, LoopController.SupAction.closeEv),
   (2000, LoopController.SupAction.startCall 99),
   (5000, LoopController.SupAction.fire 5000)]

/-- A controller mid-run (this.process non-null). -/
def c2State : LoopController.ControllerState :=
  { process := some 7, status := demoRunningStatus }

/-- Two connected observers; client 1 issues the command, client 2 is a
bystander. -/
def c2Clients : List Server.Client :=
  [{ id := 1, readyState := Server.ReadyState.wsOpen, inbox := [] },
   { id := 2, readyState := Server.ReadyState.wsOpen, inbox := [] }]

/-- The loop:log broadcast produced by the already-running warning. -/
def alreadyRunningMsg : Server.ServerMsg :=
  Server.ServerMsg.loopLog ("Loop already running") LogType.warning

/-- New file contents after a truncate-to-0 and rewrite. -/
def c3Content : List Char := ['n', 'e', 'w', '\n']

/-- First appended chunk (no trailing newline). -/
def c4A : List Char := ['a', 'b']

/-- Second appended chunk. -/
def c4B : List Char := ['c', 'd', '\n']

/-- A closed observer channel (send to it would fail). -/
def c5Fail : Server.Client :=
  { id := 9, readyState := Server.ReadyState.wsClosed, inbox := [] }

/-- A healthy open observer channel. -/
def c5Ok : Server.Client :=
  { id := 2, readyState := Server.ReadyState.wsOpen, inbox := [] }

/-- An event being fanned out. -/
def c5Msg : Server.ServerMsg :=
  Server.ServerMsg.loopLog ("evt") LogType.info

/-- A path-escaping document name. -/
def c6Name : List Char := "../secret".data

/-- Some document content. -/
def c6Content : List Char := "oops".data

/-- Empty default TasksState (fileWatcher.ts line 12). -/
def demoTasks : FileWatcher.TasksState :=
  { tasks := [], completed := 0, total := 0 }

/-- Default GitStatus (fileWatcher.ts line 13). -/
def demoGit : GitStatus :=
  { branch := "main", uncommittedCount := 0, commits := [] }

/-- A ProjectConfig snapshot. -/
def demoConfig : ProjectConfig :=
  { projectPath := "/proj"
    hasAgentsMd := false
    hasClaudeMd := false
    hasImplementationPlan := false
    hasSpecs := false
    hasCursorRules := false
    hasLoopSh := false
    enabledAgents := [] }

/-- Server state mid-run with no observers yet. -/
def c7Init : Server.ServerState :=
  { clients := []
    loopStatus := demoRunningStatus
    tasks := demoTasks
    git := demoGit
    config := demoConfig }

/-- Events after the connect: one incremental producer event. -/
def c7Events : List Server.ServerEvent :=
  [Server.ServerEvent.producer (Server.ServerMsg.loopLog ("hello") LogType.info)]

/-- The observer's channel at the end of the C7 witness scenario. -/
def c7FinalClient : Server.Client :=
  { id := 5
    readyState := Server.ReadyState.wsOpen
    inbox := Server.connectSnapshots c7Init ++
      [Server.ServerMsg.loopLog ("hello") LogType.info] }

/-- A controller with no run active. -/
def c8Idle : LoopController.ControllerState :=
  { process := none, status := demoIdleStatus }

/-- A free-text scope label. -/
def c8Scope : String := "my scope"

/-- The checklist text of the C9 example. -/
def c9Content : List Char := "- [ ] write tests\n- [x] build core\n".data

/-- The snapshot the C9 example parses to (at clock time 77). -/
def c9Expected : FileWatcher.TasksState :=
  { tasks :=
      [{ id := "task-0", content := "write tests", completed := false },
       { id := "task-1", content := "build core", completed := true }]
    completed := 1
    total := 2
    lastUpdated := some 77 }

/-- A checklist line for the C9 witness. -/
def c9WitnessLine : List Char := "- [x] a".data

/-! ## Helper lemmas -/

theorem splitNL_ne_nil (s : List Char) : splitNL s ≠ [] := by
  induction s with
  | nil => simp [splitNL]
  | cons c cs ih =>
    unfold splitNL
    split
    · simp
    · split <;> simp

theorem two_le_splitNL_length (s : List Char) (h : '\n' ∈ s) :
    2 ≤ (splitNL s).length := by
  induction s with
  | nil => simp at h
  | cons c cs ih =>
    unfold splitNL
    split
    · have hpos : 0 < (splitNL cs).length :=
        List.length_pos.mpr (splitNL_ne_nil cs)
      simp only [List.length_cons]
      omega
    · rename_i hc
      have h' : '\n' ∈ cs := by
        rcases List.mem_cons.mp h with h1 | h2
        · exact absurd h1.symm hc
        · exact h2
      split
      · rename_i heq
        exact absurd heq (splitNL_ne_nil cs)
      · rename_i l ls heq
        have h2 := ih h'
        rw [heq] at h2
        simp only [List.length_cons] at h2 ⊢
        omega

theorem splitNL_cons_nl (cs : List Char) :
    splitNL ('\n' :: cs) = [] :: splitNL cs := by
  rw [splitNL, if_pos rfl]

theorem splitNL_cons_of_ne (c : Char) (cs : List Char) (l : List Char)
    (ls : List (List Char)) (hc : c ≠ '\n') (h : splitNL cs = l :: ls) :
    splitNL (c :: cs) = (c :: l) :: ls := by
  unfold splitNL
  rw [if_neg hc, h]

theorem splitNL_append_nl (A B : List Char) :
    splitNL (A ++ '\n' :: B) = (splitNL (A ++ ['\n'])).dropLast ++ splitNL B := by
  induction A with
  | nil => simp [splitNL]
  | cons c cs ih =>
    by_cases hc : c = '\n'
    · subst hc
      have hne : splitNL (cs ++ ['\n']) ≠ [] := splitNL_ne_nil _
      obtain ⟨m, ms, hm⟩ := List.exists_cons_of_ne_nil hne
      simp only [List.cons_append]
      rw [splitNL_cons_nl, splitNL_cons_nl, ih, hm]
      simp
    · have hmem : '\n' ∈ cs ++ ['\n'] := by simp
      have h2 : 2 ≤ (splitNL (cs ++ ['\n'])).length :=
        two_le_splitNL_length _ hmem
      have hdne : (splitNL (cs ++ ['\n'])).dropLast ≠ [] := by
        have hlen := List.length_dropLast (splitNL (cs ++ ['\n']))
        intro hnil
        rw [hnil] at hlen
        simp at hlen
        omega
      obtain ⟨d, ds, hd⟩ := List.exists_cons_of_ne_nil hdne
      obtain ⟨g, hM⟩ : ∃ g, splitNL (cs ++ ['\n']) = d :: (ds ++ [g]) := by
        refine ⟨(splitNL (cs ++ ['\n'])).getLast (splitNL_ne_nil _), ?_⟩
        conv_lhs => rw [← List.dropLast_append_getLast (splitNL_ne_nil (cs ++ ['\n']))]
        rw [hd]
        simp
      have hA : splitNL (cs ++ '\n' :: B) = d :: (ds ++ splitNL B) := by
        rw [ih, hd]
        simp
      simp only [List.cons_append]
      rw [splitNL_cons_of_ne c _ d (ds ++ splitNL B) hc hA,
        splitNL_cons_of_ne c _ d (ds ++ [g]) hc hM]
      have hsplit : (c :: d) :: (ds ++ [g]) = ((c :: d) :: ds) ++ [g] := by simp
      rw [hsplit, List.dropLast_concat]
      simp

theorem splitNL_concat_nl (A : List Char) :
    splitNL (A ++ ['\n']) = (splitNL (A ++ ['\n'])).dropLast ++ [[]] := by
  have h := splitNL_append_nl A []
  simpa [splitNL] using h

theorem jsLines_append_nl (A B : List Char) :
    FileWatcher.jsLines ((A ++ ['\n']) ++ B) =
      FileWatcher.jsLines (A ++ ['\n']) ++ FileWatcher.jsLines B := by
  unfold FileWatcher.jsLines
  have h1 : (A ++ ['\n']) ++ B = A ++ '\n' :: B := by simp
  rw [h1, splitNL_append_nl, List.filter_append]
  congr 1
  nth_rewrite 2 [splitNL_concat_nl]
  rw [List.filter_append]
  simp [jsTrim]

/-! ## C1 -/

/-- C1: the claim states that the grace timer is disarmed on process
exit, so a forced-kill signal is never delivered to a different process
started after the original one exited. The code never calls
clearTimeout; its fire-time guard `if (this.process)` only checks that
some handle exists. Evaluating the code on the failing timeline —
stop() at t=0 against pid 42, exit at t=1000, a new run (pid 99)
started at t=2000, grace timer firing at t=5000 — the SIGKILL armed for
pid 42's stop cycle is delivered to the unrelated new process 99. -/
theorem c1_stale_grace_timer_kills_new_process :
    LoopController.supRun c1Init c1Trace =
      { process := some 99
        timers := []
        kills := [(42, "SIGINT"), (99, "SIGKILL")] } ∧
    (99 : Nat) ≠ 42 := by
  constructor
  · rfl
  · decide

/-! ## C3 -/

/-- C3 counterexample: with retained offset 10, a file whose new content
is the 4 bytes "new\n" (size 4 < 10, i.e. truncated to 0 and rewritten)
produces no reset and no backlog: the tailer leaves the offset at 10
and emits nothing, while the claim requires offset 0 and the new
content's lines. -/
theorem c3_shrunk_file_not_reset :
    FileWatcher.tailLog (some c3Content) 10 = (10, []) ∧
    FileWatcher.jsLines c3Content = [['n', 'e', 'w']] ∧
    (10 : Nat) ≠ 0 := by
  refine ⟨rfl, rfl, by decide⟩

/-- C3 amended: when the file's size at a change notification is
strictly less than the retained offset, tailLog leaves the offset
unchanged and emits nothing (there is no rotation/truncation handling;
content is re-emitted only via the unrelated catch branch when the file
is absent). -/
theorem c3_shrunk_file_ignored (content : List Char) (offset : Nat)
    (h : content.length < offset) :
    FileWatcher.tailLog (some content) offset = (offset, []) := by
  have hng : ¬ content.length > offset := by omega
  simp [FileWatcher.tailLog, hng]

/-- Witness for C3's amended theorem at the concrete shrunk file. -/
theorem c3_shrunk_file_ignored_witness :
    c3Content.length < 10 ∧
    FileWatcher.tailLog (some c3Content) 10 = (10, []) :=
  ⟨by decide, c3_shrunk_file_ignored c3Content 10 (by decide)⟩

/-! ## C10 -/

/-- C10: when reading the checklist file fails at a change notification
(parseTasks' catch path), the retained TasksState is returned untouched
and no tasks event is emitted. -/
theorem c10_read_failure_keeps_state (retained : FileWatcher.TasksState)
    (now : Nat) :
    FileWatcher.parseTasksStep none now retained = (retained, none) := rfl

/-! ## C4 -/

/-- C4 counterexample: appending "ab" (no trailing newline) and then
"cd\n" makes the tailer emit the lines "ab" then "cd", but the final
file content read from offset 0 has the single line "abcd" — the total
emitted lines do not equal the lines of the final content, because the
first write split a line across the two notifications. -/
theorem c4_unaligned_append_total_mismatch :
    FileWatcher.tailLog (some c4A) 0 = (2, [['a', 'b']]) ∧
    FileWatcher.tailLog (some (c4A ++ c4B)) 2 = (5, [['c', 'd']]) ∧
    [['a', 'b'], ['c', 'd']] ≠ FileWatcher.jsLines (c4A ++ c4B) := by
  refine ⟨rfl, rfl, by decide⟩

/-- C4 amended: for two appended writes where the first chunk ends at a
line boundary (it is A ++ newline) and the second chunk B is nonempty,
the first notification emits exactly the lines of the first chunk, the
second exactly the lines of the B-byte delta, the offset equals the
file size after each notification, and the lines emitted across both
equal the lines of the final content read from offset 0. -/
theorem c4_line_aligned_appends (A B : List Char) (hB : B ≠ []) :
    FileWatcher.tailLog (some (A ++ ['\n'])) 0 =
      ((A ++ ['\n']).length, FileWatcher.jsLines (A ++ ['\n'])) ∧
    FileWatcher.tailLog (some ((A ++ ['\n']) ++ B)) (A ++ ['\n']).length =
      (((A ++ ['\n']) ++ B).length, FileWatcher.jsLines B) ∧
    FileWatcher.jsLines (A ++ ['\n']) ++ FileWatcher.jsLines B =
      FileWatcher.jsLines ((A ++ ['\n']) ++ B) := by
  refine ⟨?_, ?_, (jsLines_append_nl A B).symm⟩
  · have hpos : (A ++ ['\n']).length > 0 := by simp
    simp [FileWatcher.tailLog, FileWatcher.jsLines, hpos]
  · have hgt : ((A ++ ['\n']) ++ B).length > (A ++ ['\n']).length := by
      have : 0 < B.length := List.length_pos.mpr hB
      simp only [List.length_append]
      omega
    simp only [FileWatcher.tailLog, FileWatcher.jsLines, if_pos hgt,
      List.drop_left]

/-- Witness for C4's amended theorem at chunks "a\n" and "b\n". -/
theorem c4_line_aligned_appends_witness :
    (['b', '\n'] : List Char) ≠ [] ∧
    (FileWatcher.tailLog (some ((['a'] : List Char) ++ ['\n'])) 0 =
      (((['a'] : List Char) ++ ['\n']).length,
        FileWatcher.jsLines ((['a'] : List Char) ++ ['\n'])) ∧
    FileWatcher.tailLog (some (((['a'] : List Char) ++ ['\n']) ++ ['b', '\n']))
        ((['a'] : List Char) ++ ['\n']).length =
      ((((['a'] : List Char) ++ ['\n']) ++ ['b', '\n']).length,
        FileWatcher.jsLines ['b', '\n']) ∧
    FileWatcher.jsLines ((['a'] : List Char) ++ ['\n']) ++
        FileWatcher.jsLines ['b', '\n'] =
      FileWatcher.jsLines (((['a'] : List Char) ++ ['\n']) ++ ['b', '\n'])) :=
  ⟨by decide, c4_line_aligned_appends ['a'] ['b', '\n'] (by decide)⟩

/-! ## C2 -/

/-- C2 counterexample: with a run active and two connected observers,
a start() command (no matter which observer issued it) makes the
controller emit the 'Loop already running' warning as a 'log' event,
which index.ts fans out via broadcast: observer 2, who did not issue
the command, receives it too — the failure is not reported to the
requesting caller only. -/
theorem c2_already_running_warning_broadcast :
    (LoopController.start c2State LoopMode.build none none 8 100).events =
      [LoopController.CtrlEvent.log ("Loop already running") LogType.warning] ∧
    Server.listFindClient
        (Server.deliverCtrlEvents
          (LoopController.start c2State LoopMode.build none none 8 100).events
          c2Clients) 2 =
      some { id := 2
             readyState := Server.ReadyState.wsOpen
             inbox := [alreadyRunningMsg] } := by
  refine ⟨rfl, rfl⟩

/-- C2 amended: a start() call while this.process is non-null leaves the
controller state unchanged, spawns nothing, emits no status event —
only the single 'Loop already running' warning log event (which the hub
broadcasts to every observer rather than unicasting to the caller, as
the counterexample shows). -/
theorem c2_already_running_noop (st : LoopController.ControllerState)
    (mode : LoopMode) (mi : Option Nat) (ws : Option String) (pid now p : Nat)
    (h : st.process = some p) :
    LoopController.start st mode mi ws pid now =
      { state := st
        events := [LoopController.CtrlEvent.log ("Loop already running")
          LogType.warning]
        spawned := none } := by
  simp [LoopController.start, h]

/-- Witness for C2's amended theorem at the concrete mid-run state. -/
theorem c2_already_running_noop_witness :
    c2State.process = some 7 ∧
    LoopController.start c2State LoopMode.build none none 8 100 =
      { state := c2State
        events := [LoopController.CtrlEvent.log ("Loop already running")
          LogType.warning]
        spawned := none } :=
  ⟨rfl, c2_already_running_noop c2State LoopMode.build none none 8 100 7 rfl⟩

/-! ## C8 -/

/-- C8 counterexample: in plan-work mode a truthy workScope is pushed as
a positional command-line argument (loopController.ts line 48), so the
free-text scope does appear in the argument list, contrary to the
claim that it is passed only through the environment. -/
theorem c8_scope_in_argument_list :
    LoopController.buildArgs LoopMode.planWork none (some c8Scope) =
      ["plan-work", c8Scope] ∧
    c8Scope ∈ LoopController.buildArgs LoopMode.planWork none (some c8Scope) := by
  refine ⟨rfl, by decide⟩

/-- C8 amended: a truthy scope label is passed both as a positional
argument (plan-work mode) and through the WORK_SCOPE environment
variable; for every mode the argument list and the environment overlay
of the spawn issued by start() are the deterministic functions
buildArgs and envWorkScope of (mode, iterationLimit, scopeLabel). -/
theorem c8_scope_args_env (st : LoopController.ControllerState)
    (mode : LoopMode) (mi mi2 : Option Nat) (ws : Option String) (s : String)
    (pid now : Nat) (hs : s ≠ "") (hp : st.process = none) :
    LoopController.buildArgs LoopMode.planWork mi2 (some s) = ["plan-work", s] ∧
    LoopController.envWorkScope (some s) = s ∧
    (LoopController.start st mode mi ws pid now).spawned =
      some { args := LoopController.buildArgs mode mi ws
             workScopeEnv := LoopController.envWorkScope ws } := by
  refine ⟨?_, ?_, ?_⟩
  · simp [LoopController.buildArgs, LoopController.scopeArg, hs]
  · simp [LoopController.envWorkScope, hs]
  · simp [LoopController.start, hp]

/-- Witness for C8's amended theorem at an idle controller and the
concrete scope label. -/
theorem c8_scope_args_env_witness :
    c8Scope ≠ "" ∧ c8Idle.process = none ∧
    (LoopController.buildArgs LoopMode.planWork none (some c8Scope) =
      ["plan-work", c8Scope] ∧
    LoopController.envWorkScope (some c8Scope) = c8Scope ∧
    (LoopController.start c8Idle LoopMode.planWork none (some c8Scope) 8 100).spawned =
      some { args := LoopController.buildArgs LoopMode.planWork none (some c8Scope)
             workScopeEnv := LoopController.envWorkScope (some c8Scope) }) :=
  ⟨by decide, rfl,
    c8_scope_args_env c8Idle LoopMode.planWork none none (some c8Scope) c8Scope
      8 100 (by decide) rfl⟩

/-! ## C6 -/

/-- C6 counterexample: a config:write (or config:read) for the
path-escaping name "../secret" is rejected before any filesystem
access, but the ws message handler's catch only logs to the server
console — no reply of any kind is sent to the requesting observer, so
the failure is delivered by silently dropping the request, not as an
explicit typed payload. -/
theorem c6_invalid_name_silently_dropped :
    Server.handleConfigWrite c6Name c6Content =
      (none, ProjectConfigManager.WriteOutcome.rejected) ∧
    Server.handleConfigRead c6Name =
      (none, ProjectConfigManager.ReadOutcome.rejected) := by
  refine ⟨rfl, rfl⟩

/-- C6 amended: a document name containing '..' or starting with '/' is
rejected synchronously by readFile/writeFile before any filesystem
operation, so the file is never written; over the WebSocket surface the
failure produces no observer-visible payload (the catch only logs
server-side), while the REST surface answers HTTP 500. -/
theorem c6_invalid_name_rejected (filename content : List Char)
    (h : ProjectConfigManager.invalidDocName filename = true) :
    ProjectConfigManager.writeFile filename content =
      ProjectConfigManager.WriteOutcome.rejected ∧
    ProjectConfigManager.readFile filename =
      ProjectConfigManager.ReadOutcome.rejected ∧
    Server.handleConfigWrite filename content =
      (none, ProjectConfigManager.WriteOutcome.rejected) ∧
    Server.handleConfigRead filename =
      (none, ProjectConfigManager.ReadOutcome.rejected) ∧
    Server.restConfigWrite filename content =
      (500, ProjectConfigManager.WriteOutcome.rejected) := by
  simp [Server.handleConfigWrite, Server.handleConfigRead,
    Server.restConfigWrite, ProjectConfigManager.writeFile,
    ProjectConfigManager.readFile, h]

/-- Witness for C6's amended theorem at the concrete invalid name. -/
theorem c6_invalid_name_rejected_witness :
    ProjectConfigManager.invalidDocName c6Name = true ∧
    (ProjectConfigManager.writeFile c6Name c6Content =
      ProjectConfigManager.WriteOutcome.rejected ∧
    ProjectConfigManager.readFile c6Name =
      ProjectConfigManager.ReadOutcome.rejected ∧
    Server.handleConfigWrite c6Name c6Content =
      (none, ProjectConfigManager.WriteOutcome.rejected) ∧
    Server.handleConfigRead c6Name =
      (none, ProjectConfigManager.ReadOutcome.rejected) ∧
    Server.restConfigWrite c6Name c6Content =
      (500, ProjectConfigManager.WriteOutcome.rejected)) :=
  ⟨by decide, c6_invalid_name_rejected c6Name c6Content (by decide)⟩

/-! ## C5 -/

/-- C5: broadcast handles each channel independently: a failing (closed)
channel in the set does not prevent an open channel from receiving the
event (its inbox gains exactly that message); the failing channel is
skipped (left unchanged) by broadcast and is removed from the set when
its close event is processed — afterwards no channel with its id
remains. -/
theorem c5_send_failure_isolated (clients : List Server.Client)
    (msg : Server.ServerMsg) (f c : Server.Client)
    (hf : f ∈ clients) (hfClosed : f.readyState = Server.ReadyState.wsClosed)
    (hc : c ∈ clients) (hcOpen : c.readyState = Server.ReadyState.wsOpen) :
    ({ c with inbox := c.inbox ++ [msg] }) ∈ Server.broadcast msg clients ∧
    f ∈ Server.broadcast msg clients ∧
    (Server.handleClose (Server.broadcast msg clients) f.id).filter
      (fun x => x.id == f.id) = [] := by
  refine ⟨?_, ?_, ?_⟩
  · unfold Server.broadcast
    refine List.mem_map.mpr ⟨c, hc, ?_⟩
    rw [if_pos hcOpen]
  · unfold Server.broadcast
    refine List.mem_map.mpr ⟨f, hf, ?_⟩
    rw [if_neg]
    rw [hfClosed]
    intro hcontra
    exact absurd hcontra (by decide)
  · unfold Server.handleClose
    rw [List.filter_filter]
    refine List.filter_eq_nil_iff.mpr ?_
    intro a _
    by_cases hid : a.id = f.id <;> simp [hid]

/-- Witness for C5 at a two-channel set with one closed channel. -/
theorem c5_send_failure_isolated_witness :
    c5Fail ∈ [c5Fail, c5Ok] ∧
    c5Fail.readyState = Server.ReadyState.wsClosed ∧
    c5Ok ∈ [c5Fail, c5Ok] ∧
    c5Ok.readyState = Server.ReadyState.wsOpen ∧
    (({ c5Ok with inbox := c5Ok.inbox ++ [c5Msg] }) ∈
        Server.broadcast c5Msg [c5Fail, c5Ok] ∧
      c5Fail ∈ Server.broadcast c5Msg [c5Fail, c5Ok] ∧
      (Server.handleClose (Server.broadcast c5Msg [c5Fail, c5Ok])
          c5Fail.id).filter (fun x => x.id == c5Fail.id) = []) :=
  ⟨by decide, rfl, by decide, rfl,
    c5_send_failure_isolated [c5Fail, c5Ok] c5Msg c5Fail c5Ok
      (by decide) rfl (by decide) rfl⟩

/-! ## C7 helper lemmas -/

theorem applyRetained_clients (st : Server.ServerState) (m : Server.ServerMsg) :
    (Server.applyRetained st m).clients = st.clients := by
  cases m <;> rfl

theorem clientsInv_step (i : Nat) (base : List Server.ServerMsg)
    (st : Server.ServerState) (e : Server.ServerEvent)
    (he : e ≠ Server.ServerEvent.connect i)
    (h : ∀ c ∈ st.clients, c.id = i → ∃ rest, c.inbox = base ++ rest) :
    ∀ c ∈ (Server.stepServer st e).clients, c.id = i →
      ∃ rest, c.inbox = base ++ rest := by
  intro c hcmem hid
  cases e with
  | connect j =>
    simp only [Server.stepServer] at hcmem
    rcases List.mem_append.mp hcmem with h1 | h2
    · exact h c h1 hid
    · have hcj : c = Server.newClient st j := by simpa using h2
      have hji : j = i := by
        rw [hcj] at hid
        simpa [Server.newClient] using hid
      exact absurd (by rw [hji]) he
  | close j =>
    simp only [Server.stepServer, Server.handleClose] at hcmem
    exact h c (List.mem_of_mem_filter hcmem) hid
  | producer m =>
    simp only [Server.stepServer, Server.broadcast,
      applyRetained_clients] at hcmem
    rcases List.mem_map.mp hcmem with ⟨a, ha, hfa⟩
    by_cases hr : a.readyState = Server.ReadyState.wsOpen
    · rw [if_pos hr] at hfa
      have hida : a.id = i := by rw [← hfa] at hid; exact hid
      obtain ⟨rest, hrest⟩ := h a ha hida
      refine ⟨rest ++ [m], ?_⟩
      rw [← hfa]
      simp [hrest]
    · rw [if_neg hr] at hfa
      rw [← hfa] at hid ⊢
      exact h a ha hid

theorem clientsInv_run (i : Nat) (base : List Server.ServerMsg)
    (es : List Server.ServerEvent) :
    ∀ (st : Server.ServerState),
      Server.ServerEvent.connect i ∉ es →
      (∀ c ∈ st.clients, c.id = i → ∃ rest, c.inbox = base ++ rest) →
      ∀ c ∈ (Server.runServer st es).clients, c.id = i →
        ∃ rest, c.inbox = base ++ rest := by
  induction es with
  | nil => intro st _ h; exact h
  | cons e es ih =>
    intro st hne h
    have he : e ≠ Server.ServerEvent.connect i :=
      fun heq => hne (by rw [heq]; exact List.mem_cons_self _ _)
    have hes : Server.ServerEvent.connect i ∉ es :=
      fun hm => hne (List.mem_cons_of_mem _ hm)
    exact ih (Server.stepServer st e) hes (clientsInv_step i base st e he h)

/-! ## C7 -/

/-- C7: an observer connecting with a fresh channel id receives, as the
first four messages in its inbox, exactly the loop status, tasks, git
and config snapshots current at connect time — before any incremental
event — no matter what events follow; in particular the very first
delivered message is the controller's current ProcessRunState (so an
observer connecting mid-run sees isRunning=true and the current
iteration count immediately, without waiting for child output). -/
theorem c7_snapshots_before_increments (st : Server.ServerState) (i : Nat)
    (es : List Server.ServerEvent) (c : Server.Client)
    (h0 : Server.listFindClient st.clients i = none)
    (hes : Server.ServerEvent.connect i ∉ es)
    (hfind : Server.listFindClient
        (Server.runServer
          (Server.stepServer st (Server.ServerEvent.connect i)) es).clients i =
      some c) :
    c.inbox.take 4 = Server.connectSnapshots st ∧
    c.inbox.head? = some (Server.ServerMsg.loopStatus st.loopStatus) := by
  simp only [Server.listFindClient] at h0 hfind
  have hstep : ∀ x ∈ (Server.stepServer st (Server.ServerEvent.connect i)).clients,
      x.id = i → ∃ rest, x.inbox = Server.connectSnapshots st ++ rest := by
    intro x hx hxid
    simp only [Server.stepServer] at hx
    rcases List.mem_append.mp hx with h1 | h2
    · have hnp := List.find?_eq_none.mp h0 x h1
      simp [hxid] at hnp
    · have hx2 : x = Server.newClient st i := by simpa using h2
      refine ⟨[], ?_⟩
      rw [hx2]
      simp [Server.newClient]
  have hinv := clientsInv_run i (Server.connectSnapshots st) es
    (Server.stepServer st (Server.ServerEvent.connect i)) hes hstep
  have hmem := List.mem_of_find?_eq_some hfind
  have hid : c.id = i := by
    have hp := List.find?_some hfind
    simpa using hp
  obtain ⟨rest, hrest⟩ := hinv c hmem hid
  constructor
  · rw [hrest]
    have hlen : (Server.connectSnapshots st).length = 4 := rfl
    rw [← hlen, List.take_left]
  · rw [hrest]
    simp [Server.connectSnapshots]

/-- Witness for C7: a fresh server mid-run, a connect of channel 5
followed by one incremental log event. -/
theorem c7_snapshots_before_increments_witness :
    Server.listFindClient c7Init.clients 5 = none ∧
    Server.ServerEvent.connect 5 ∉ c7Events ∧
    (c7FinalClient.inbox.take 4 = Server.connectSnapshots c7Init ∧
      c7FinalClient.inbox.head? =
        some (Server.ServerMsg.loopStatus c7Init.loopStatus)) :=
  ⟨rfl, by decide,
    c7_snapshots_before_increments c7Init 5 c7Events c7FinalClient rfl
      (by decide) (by decide)⟩

/-! ## C9 -/

theorem matchTaskLine_bracket (line : List Char) (c : Char) (v : List Char)
    (h : FileWatcher.matchTaskLine line = some (c, v)) :
    c = ' ' ∨ c = 'x' ∨ c = 'X' := by
  unfold FileWatcher.matchTaskLine at h
  split at h
  · split at h
    · split at h
      · rename_i hcond
        rcases Option.map_eq_some'.mp h with ⟨v', hv', heq⟩
        rw [Prod.mk.injEq] at heq
        obtain ⟨h1, h2⟩ := heq
        subst h1
        simpa [or_assoc] using hcond
      · simp at h
    · simp at h
  · simp at h

/-- C9: parsing the two-line example checklist yields exactly the
expected snapshot (doneCount 1, totalCount 2, item 0 not done with text
"write tests", item 1 done with text "build core"); and in general the
derived counts equal the number of done items and the total item count,
and every matched line yields an item whose done flag is true iff the
bracket character is 'x' or 'X', whose text is the trimmed remainder,
and whose id is derived from the source line index. -/
theorem c9_checklist_parse (line : List Char) (c : Char) (v : List Char)
    (index : Nat) (content : List Char) (now : Nat)
    (h : FileWatcher.matchTaskLine line = some (c, v)) :
    FileWatcher.parseTasksPure c9Content 77 = c9Expected ∧
    (FileWatcher.parseTasksPure content now).completed =
      ((FileWatcher.parseTasksPure content now).tasks.filter
        (fun t => t.completed)).length ∧
    (FileWatcher.parseTasksPure content now).total =
      (FileWatcher.parseTasksPure content now).tasks.length ∧
    ((FileWatcher.taskOfLine index c v).completed = true ↔
      (c = 'x' ∨ c = 'X')) ∧
    (FileWatcher.taskOfLine index c v).content = String.mk (jsTrim v) ∧
    (FileWatcher.taskOfLine index c v).id = "task-" ++ toString index := by
  refine ⟨by decide, rfl, rfl, ?_, rfl, rfl⟩
  rcases matchTaskLine_bracket line c v h with h1 | h1 | h1 <;>
    subst h1 <;> simp [FileWatcher.taskOfLine]

/-- Witness for C9 at the line "- [x] a" (and the example content). -/
theorem c9_checklist_parse_witness :
    FileWatcher.matchTaskLine c9WitnessLine = some ('x', ['a']) ∧
    (FileWatcher.parseTasksPure c9Content 77 = c9Expected ∧
    (FileWatcher.parseTasksPure c9Content 77).completed =
      ((FileWatcher.parseTasksPure c9Content 77).tasks.filter
        (fun t => t.completed)).length ∧
    (FileWatcher.parseTasksPure c9Content 77).total =
      (FileWatcher.parseTasksPure c9Content 77).tasks.length ∧
    ((FileWatcher.taskOfLine 0 'x' ['a']).completed = true ↔
      ('x' = 'x' ∨ 'x' = 'X')) ∧
    (FileWatcher.taskOfLine 0 'x' ['a']).content = String.mk (jsTrim ['a']) ∧
    (FileWatcher.taskOfLine 0 'x' ['a']).id = "task-" ++ toString 0) :=
  ⟨by decide, c9_checklist_parse c9WitnessLine 'x' ['a'] 0 c9Content 77 (by decide)⟩
